import Mathlib

/-
Verification of the use-db-state state-synchronization engine.

The definitions below are a shallow embedding of the JavaScript sources:
  src/useDbState.js        (cache, operation queue, debounce, session)
  src/useDbKeyRemover.js   (key removal)
  src/utils/subscriptions.js (subscription registry / notify fan-out)
JavaScript values observable by the engine are modelled by JSVal; the JS
value undefined is modelled as the value none of Val := Option JSVal.
-/

namespace UseDbState

mutual
inductive JSVal where
  | null : JSVal
  | bool (b : Bool) : JSVal
  | num (n : Int) : JSVal
  | str (s : String) : JSVal
  | arr (xs : JSList) : JSVal
  | obj (fs : JSFields) : JSVal
  deriving DecidableEq

inductive JSList where
  | nil : JSList
  | cons (hd : JSVal) (tl : JSList) : JSList
  deriving DecidableEq

inductive JSFields where
  | nil : JSFields
  | cons (k : String) (v : JSVal) (tl : JSFields) : JSFields
  deriving DecidableEq
end

/-- A JS value or undefined (none plays the role of undefined). -/
abbrev Val := Option JSVal

mutual
/-- JSON.stringify on modelled values: object fields keep insertion order. -/
def stringify : JSVal → String
  | .null => "null"
  | .bool true => "true"
  | .bool false => "false"
  | .num n => toString n
  | .str s => "\"" ++ s ++ "\""
  | .arr xs => "[" ++ stringifyList xs ++ "]"
  | .obj fs => "\x7b" ++ stringifyFields fs ++ "\x7d"

def stringifyList : JSList → String
  | .nil => ""
  | .cons x .nil => stringify x
  | .cons x tl => stringify x ++ "," ++ stringifyList tl

def stringifyFields : JSFields → String
  | .nil => ""
  | .cons k v .nil => "\"" ++ k ++ "\":" ++ stringify v
  | .cons k v tl => "\"" ++ k ++ "\":" ++ stringify v ++ "," ++ stringifyFields tl
end

/-- JSON.stringify lifted to possibly-undefined values: stringify of
undefined is undefined (not a string), as in JS. -/
def stringifyV : Val → Option String :=
  Option.map stringify

/-- Ordering on character lists (helper for sorting object keys). -/
def charsLt : List Char → List Char → Bool
  | [], [] => false
  | [], _ :: _ => true
  | _ :: _, [] => false
  | a :: as, b :: bs =>
    if a.toNat < b.toNat then true
    else if b.toNat < a.toNat then false
    else charsLt as bs

/-- Lexicographic ordering on strings via their character lists. -/
def strLt (a b : String) : Bool :=
  charsLt a.data b.data

/-- Insert one field into a key-sorted field list (helper for canon). -/
def insertField (k : String) (v : JSVal) : JSFields → JSFields
  | .nil => .cons k v .nil
  | .cons k' v' tl =>
    if strLt k k' then .cons k v (.cons k' v' tl)
    else .cons k' v' (insertField k v tl)

/-- Sort the fields of one object level by key (helper for canon). -/
def sortFields : JSFields → JSFields
  | .nil => .nil
  | .cons k v tl => insertField k v (sortFields tl)

mutual
/-- Canonical form for deep structural equality: object keys sorted at
every level, arrays kept in order. -/
def canon : JSVal → JSVal
  | .null => .null
  | .bool b => .bool b
  | .num n => .num n
  | .str s => .str s
  | .arr xs => .arr (canonList xs)
  | .obj fs => .obj (sortFields (canonFields fs))

def canonList : JSList → JSList
  | .nil => .nil
  | .cons x tl => .cons (canon x) (canonList tl)

def canonFields : JSFields → JSFields
  | .nil => .nil
  | .cons k v tl => .cons k (canon v) (canonFields tl)
end

/-- Deep structural equality in the sense of the specification: values are
equal when they agree up to reordering of object keys at every level. This
definition follows the words of the spec (it is the comparison the spec
attributes to setValue); the source instead compares JSON.stringify
results, embedded as stringifyV above. -/
def deepStructEq (a b : JSVal) : Bool :=
  canon a == canon b

/-- A JS Map with string keys (the in-memory cache, the durable store
contents and similar registries are all of this shape). -/
abbrev KVMap := List (String × Val)

/-- Map.prototype.get restricted to presence: some v when the key is
present with value v, none when the key is absent. -/
def mapGet (k : String) : KVMap → Option Val
  | [] => none
  | (k', v) :: rest => if k' = k then some v else mapGet k rest

/-- Map.prototype.set: overwrite in place or append. -/
def mapSet (k : String) (v : Val) : KVMap → KVMap
  | [] => [(k, v)]
  | (k', v') :: rest =>
    if k' = k then (k, v) :: rest else (k', v') :: mapSet k v rest

/-- Map.prototype.has. -/
def mapHas (k : String) (m : KVMap) : Bool :=
  (mapGet k m).isSome

/-- Map.prototype.delete (Object store delete): drop every entry with the
given key. -/
def mapDelete (k : String) : KVMap → KVMap :=
  List.filter (fun p => decide (p.1 ≠ k))

/-- Map.prototype.get as seen by JS code: undefined for an absent key. -/
def jsGet (m : KVMap) (k : String) : Val :=
  (mapGet k m).getD none

/-- The JS nullish-coalescing operator: a gives way to b exactly when a
is undefined or null. -/
def nullish (a b : Val) : Val :=
  match a with
  | none => b
  | some .null => b
  | some v => some v

theorem mapGet_mapSet_self (k : String) (v : Val) (m : KVMap) :
    mapGet k (mapSet k v m) = some v := by
  induction m with
  | nil => simp [mapGet, mapSet]
  | cons p rest ih =>
    by_cases h : p.1 = k
    · simp [mapSet, mapGet, h]
    · simp [mapSet, mapGet, h, ih]

theorem jsGet_mapSet_self (k : String) (v : Val) (m : KVMap) :
    jsGet (mapSet k v m) k = v := by
  simp [jsGet, mapGet_mapSet_self]

theorem mapGet_mapDelete_self (k : String) (m : KVMap) :
    mapGet k (mapDelete k m) = none := by
  induction m with
  | nil => simp [mapDelete, mapGet]
  | cons p rest ih =>
    by_cases h : p.1 = k
    · simpa [mapDelete, mapGet, h] using ih
    · simpa [mapDelete, mapGet, h] using ih

theorem nullish_idem (a : Val) : nullish a a = a := by
  match a with
  | none => rfl
  | some .null => rfl
  | some (.bool b) => rfl
  | some (.num n) => rfl
  | some (.str s) => rfl
  | some (.arr xs) => rfl
  | some (.obj fs) => rfl

theorem nullish_some_of_ne_null (x : JSVal) (b : Val) (h : x ≠ .null) :
    nullish (some x) b = some x := by
  match x with
  | .null => exact absurd rfl h
  | .bool v => rfl
  | .num n => rfl
  | .str s => rfl
  | .arr xs => rfl
  | .obj fs => rfl

/-- Model of the debounce utility (src/useDbState.js lines 76-82) applied
to a timed sequence of calls (time, value), times strictly increasing.
Each call clears the pending timer and arms a new one at call time plus
delay; a timer armed at time t fires unless a further call arrives
strictly before t + delay. The result lists the (fire time, value) pairs
that actually reach the wrapped function, in order. -/
def debounceFires (delay : Nat) : List (Nat × Val) → List (Nat × Val)
  | [] => []
  | [(t, v)] => [(t + delay, v)]
  | (t, v) :: (t', v') :: rest =>
    if t' < t + delay then debounceFires delay ((t', v') :: rest)
    else (t + delay, v) :: debounceFires delay ((t', v') :: rest)

/-- The hypothesis of debounce coalescing: call times strictly increase
and each consecutive gap is strictly below the delay. -/
def withinChain (delay : Nat) : List (Nat × Val) → Bool
  | (t, _) :: (t', v') :: rest =>
    decide (t < t') && decide (t' < t + delay) && withinChain delay ((t', v') :: rest)
  | _ => true

/-- Model of OperationQueue (src/useDbState.js lines 9-22). Each enqueued
operation is chained onto the settled outcome of the previous one
(queue.then(operation).then(resolve).catch(reject)), so operations run
one after another in submission order, each outcome is delivered to its
own caller, and the catch keeps the chain alive after a rejection. An
operation is a state transformer that always yields the next state plus
its own outcome. -/
def runQueue {σ ε α : Type} : σ → List (σ → σ × Except ε α) → σ × List (Except ε α)
  | s, [] => (s, [])
  | s, op :: ops =>
    let p := op s
    let q := runQueue p.1 ops
    (q.1, p.2 :: q.2)

/-- An instrumented operation: records its identifier in an execution log
when it runs, then succeeds or rejects according to its flag. Used to
observe the order in which the queue executes operations. -/
def mkLogOp (p : Nat × Bool) : List Nat → List Nat × Except Nat Nat :=
  fun log => (log ++ [p.1], if p.2 then Except.error p.1 else Except.ok p.1)

/-- Observable events of one queued persistence operation. -/
inductive Ev where
  | putConfirm (k : String) (v : Val)
  | cacheWrite (k : String) (v : Val)
  | notifyEv (k : String) (v : Val)
  | putFail (k : String) (v : Val)
  deriving DecidableEq

/-- Trace of the operation enqueued by setDbValue (src/useDbState.js
lines 54-73): the put request is issued; on success the cache is updated
and notify is invoked, in that order; on error the promise rejects and
nothing else happens. The Bool says whether the storage adapter confirms
the write. -/
def setDbTrace (k : String) (v : Val) (ok : Bool) : List Ev :=
  if ok then [.putConfirm k v, .cacheWrite k v, .notifyEv k v]
  else [.putFail k v]

/-- Event trace of a batch of setDbValue operations run through the
per-key queue (which executes them sequentially in submission order). -/
def runSetDb : List (String × Val × Bool) → List Ev
  | [] => []
  | o :: rest => setDbTrace o.1 o.2.1 o.2.2 ++ runSetDb rest

def isNotify : Ev → Bool
  | .notifyEv _ _ => true
  | _ => false

/-- Model of notify (src/utils/subscriptions.js lines 10-14): the
registered callbacks for the key are invoked in iteration order via
Set.prototype.forEach with no surrounding try/catch, so an exception
thrown by one callback propagates and ends the iteration. Callbacks are
identified by a number; throws says which ones throw. Returns the list of
callbacks actually invoked and whether an exception escaped. -/
def notifyRun (throws : Nat → Bool) : List Nat → List Nat × Bool
  | [] => ([], false)
  | c :: rest =>
    if throws c then ([c], true)
    else
      let r := notifyRun throws rest
      (c :: r.1, r.2)

/-- One Session of useDbState bound to a key (src/useDbState.js lines
114-215): the shared cache, the previousValueRef mirror, the React state
value, the didInit and isSyncing flags, and the list of values handed to
debouncedSync, in order. -/
structure Sess where
  key : String
  dflt : Val
  cache : KVMap
  prevRef : Val
  stateVal : Val
  didInit : Bool
  syncing : Bool
  scheduled : List Val
  deriving DecidableEq

/-- Lines 122-124: if a defaultValue is provided and no cached value
exists, seed the cache with it. -/
def seedCache (k : String) (d : Val) (c : KVMap) : KVMap :=
  if d.isSome && !(mapHas k c) then mapSet k d c else c

/-- Session construction (lines 121-131): seed the cache, then
initialize the state with cache.get(key) ?? defaultValue; the
previousValueRef starts at that value, didInit and isSyncing start
false, nothing is scheduled yet. -/
def mkSession (k : String) (d : Val) (c0 : KVMap) : Sess :=
  let c := seedCache k d c0
  let v0 := nullish (jsGet c k) d
  ⟨k, d, c, v0, v0, false, false, []⟩

/-- The argument of setValue: a literal value, or an updater function of
the previous value (the source distinguishes the two by typeof). -/
inductive ValArg where
  | lit (v : Val)
  | upd (f : Val → Val)

def resolveArg (a : ValArg) (prev : Val) : Val :=
  match a with
  | .lit v => v
  | .upd f => f prev

/-- setValue (lines 144-158): resolve the argument against
previousValueRef; when the JSON.stringify images differ, update the ref,
the cache and the state, and hand the value to debouncedSync exactly when
didInit holds and isSyncing does not; when the stringify images agree, do
nothing at all. -/
def setValue (a : ValArg) (s : Sess) : Sess :=
  let resolved := resolveArg a s.prevRef
  if stringifyV resolved ≠ stringifyV s.prevRef then
    { s with
        prevRef := resolved
        cache := mapSet s.key resolved s.cache
        stateVal := resolved
        scheduled :=
          if s.didInit && !s.syncing then s.scheduled ++ [resolved]
          else s.scheduled }
  else s

/-- Start of the load effect (lines 164-165): when not yet initialized,
mark isSyncing while the initial load is in flight. -/
def effectStart (s : Sess) : Sess :=
  if s.didInit then s else { s with syncing := true }

/-- The load resolves (lines 167-187, mounted): getDbValue already wrote
a found value into the cache (line 43); a found value overwrites the ref
and the state; with no stored value but a default, the default is handed
to debouncedSync; either way didInit becomes true and isSyncing is
cleared in the finally block. -/
def loadComplete (stored : Val) (s : Sess) : Sess :=
  if stored.isSome then
    { s with
        cache := mapSet s.key stored s.cache
        prevRef := stored
        stateVal := stored
        didInit := true
        syncing := false }
  else if s.dflt.isSome then
    { s with scheduled := s.scheduled ++ [s.dflt], didInit := true, syncing := false }
  else
    { s with didInit := true, syncing := false }

/-- The load rejects (lines 180-187): only the finally block runs, so
isSyncing is cleared and didInit stays false. -/
def loadFail (s : Sess) : Sess :=
  { s with syncing := false }

/-- The subscription handler (lines 190-198): an external notification
sets isSyncing, applies the value to the ref, the cache and the state,
then clears isSyncing; it never touches debouncedSync. -/
def notifyRecv (v : Val) (s : Sess) : Sess :=
  { s with
      prevRef := v
      cache := mapSet s.key v s.cache
      stateVal := v
      syncing := false }

/-- Session events in the order they hit the single JS thread. -/
inductive SessEv where
  | evSet (a : ValArg)
  | evEffectStart
  | evLoadOk (stored : Val)
  | evLoadFail
  | evNotify (v : Val)

def stepSess (s : Sess) : SessEv → Sess
  | .evSet a => setValue a s
  | .evEffectStart => effectStart s
  | .evLoadOk stored => loadComplete stored s
  | .evLoadFail => loadFail s
  | .evNotify v => notifyRecv v s

def runSess (s : Sess) : List SessEv → Sess
  | [] => s
  | e :: es => runSess (stepSess s e) es

/-- The result getDbValue resolves with (lines 40-45): the stored record
value when one exists, undefined otherwise. The store is the durable
key-value contents of the object store. -/
def getDbResult (st : KVMap) (k : String) : Val :=
  jsGet st k

/-- Process-level state seen by key removal: the durable store, the
in-memory cache initialValuesCache, and the list of notifications sent. -/
structure Proc where
  store : KVMap
  cache : KVMap
  notified : List (String × Val)
  deriving DecidableEq

/-- removeDbKey (src/useDbKeyRemover.js lines 14-42): opens the database
and deletes the key from the object store. The function touches neither
the in-memory cache nor the subscription registry. -/
def removeDbKey (k : String) (p : Proc) : Proc :=
  { p with store := mapDelete k p.store }

/-- Claim C1. Debounce coalescing: for every nonempty sequence of calls
on the same key issued at strictly increasing times with every
consecutive gap strictly below the delay, the debounce model fires
exactly once, at the last call time plus the delay, carrying the value of
the last call; intermediate values never reach the wrapped persistence
function, so exactly one put is submitted, with the final value. -/
theorem debounce_coalesces (delay t : Nat) (v : Val) (rest : List (Nat × Val))
    (h : withinChain delay ((t, v) :: rest) = true) :
    debounceFires delay ((t, v) :: rest) =
      [((rest.getLastD (t, v)).1 + delay, (rest.getLastD (t, v)).2)] := by
  induction rest generalizing t v with
  | nil => rfl
  | cons p rest' ih =>
    rcases p with ⟨t', v'⟩
    have h1 : t' < t + delay := by
      have := h
      simp [withinChain] at this
      exact this.1.2
    have h2 : withinChain delay ((t', v') :: rest') = true := by
      have := h
      simp [withinChain] at this
      exact this.2
    have hfire : debounceFires delay ((t, v) :: (t', v') :: rest') =
        debounceFires delay ((t', v') :: rest') := by
      simp [debounceFires, h1]
    rw [hfire, ih t' v' h2, List.getLastD_cons (t, v) (t', v') rest']

/-- Claim C1 witness: three calls at times 0, 50, 90 with delay 100 are
within the chain condition and produce the single fire (190, 3). -/
theorem debounce_coalesces_witness :
    withinChain 100 [(0, some (JSVal.num 1)), (50, some (JSVal.num 2)),
        (90, some (JSVal.num 3))] = true ∧
    debounceFires 100 [(0, some (JSVal.num 1)), (50, some (JSVal.num 2)),
        (90, some (JSVal.num 3))] = [(190, some (JSVal.num 3))] :=
  ⟨by decide,
   debounce_coalesces 100 0 (some (JSVal.num 1))
     [(50, some (JSVal.num 2)), (90, some (JSVal.num 3))] (by decide)⟩

/-- Claim C2. Per-key write serialization: running any batch of
instrumented operations through the queue model executes every operation,
in submission order (the execution log extends by exactly the submitted
identifiers in order, through failures), and delivers to each caller its
own outcome — a rejection is reported to its own caller only and leaves
the outcomes of subsequently enqueued operations untouched. Sequential
execution of the chain itself (no two operations in flight at once) is
the very shape of runQueue, which starts an operation only once the
previous one has settled. -/
theorem queue_fifo_failure_isolated (specs : List (Nat × Bool)) (s0 : List Nat) :
    (runQueue s0 (specs.map mkLogOp)).1 = s0 ++ specs.map Prod.fst ∧
    (runQueue s0 (specs.map mkLogOp)).2 =
      specs.map (fun p => if p.2 then Except.error p.1 else Except.ok p.1) := by
  induction specs generalizing s0 with
  | nil => simp [runQueue]
  | cons p rest ih =>
    have h := ih (s0 ++ [p.1])
    constructor
    · simp only [List.map_cons, runQueue, mkLogOp]
      rw [h.1]
      simp
    · simp only [List.map_cons, runQueue, mkLogOp]
      rw [h.2]

/-- Claim C3 counterexample: two objects with the same fields in
different insertion order are deep-structurally equal, yet setValue on a
ready Session whose current value is the first object and whose argument
is the second performs a cache write and hands the value to
debouncedSync — the claimed no-op does not happen, because the source
compares JSON.stringify images, which preserve insertion order. -/
theorem setValue_deep_equal_not_noop :
    deepStructEq (.obj (.cons "a" (.num 1) (.cons "b" (.num 2) .nil)))
        (.obj (.cons "b" (.num 2) (.cons "a" (.num 1) .nil))) = true ∧
    (setValue (.lit (some (.obj (.cons "b" (.num 2) (.cons "a" (.num 1) .nil)))))
        ⟨"k", none, [("k", some (.obj (.cons "a" (.num 1) (.cons "b" (.num 2) .nil))))],
         some (.obj (.cons "a" (.num 1) (.cons "b" (.num 2) .nil))),
         some (.obj (.cons "a" (.num 1) (.cons "b" (.num 2) .nil))),
         true, false, []⟩).scheduled =
      [some (.obj (.cons "b" (.num 2) (.cons "a" (.num 1) .nil)))] := by
  constructor
  · decide
  · decide

/-- Claim C3 (amended): no-op suppression holds for the comparison the
source actually performs — when the JSON.stringify image of the resolved
value equals that of the previous value, setValue changes nothing at all:
no cache write, no state update, no debounce scheduling (and hence no put
and no notification downstream). -/
theorem setValue_noop_on_stringify_equal (a : ValArg) (s : Sess)
    (h : stringifyV (resolveArg a s.prevRef) = stringifyV s.prevRef) :
    setValue a s = s := by
  simp [setValue, h]

/-- Claim C3 witness: setting the literal 4 on a Session whose current
value is 4 satisfies the stringify-equality hypothesis and leaves the
Session untouched. -/
theorem setValue_noop_witness :
    stringifyV (resolveArg (.lit (some (JSVal.num 4)))
        (⟨"k", none, [("k", some (JSVal.num 4))], some (JSVal.num 4),
          some (JSVal.num 4), true, false, []⟩ : Sess).prevRef) =
      stringifyV (⟨"k", none, [("k", some (JSVal.num 4))], some (JSVal.num 4),
          some (JSVal.num 4), true, false, []⟩ : Sess).prevRef ∧
    setValue (.lit (some (JSVal.num 4)))
        ⟨"k", none, [("k", some (JSVal.num 4))], some (JSVal.num 4),
         some (JSVal.num 4), true, false, []⟩ =
      ⟨"k", none, [("k", some (JSVal.num 4))], some (JSVal.num 4),
       some (JSVal.num 4), true, false, []⟩ :=
  ⟨by decide,
   setValue_noop_on_stringify_equal (.lit (some (JSVal.num 4)))
     ⟨"k", none, [("k", some (JSVal.num 4))], some (JSVal.num 4),
      some (JSVal.num 4), true, false, []⟩ (by decide)⟩

/-- Claim C8. Feedback-loop avoidance: the external-notification handler
applies the received value to the previousValueRef, the Session state and
the cache, clears the syncing flag, and leaves the list of values handed
to the Debounce Scheduler untouched — receiving a notification never
schedules or triggers a persistence write from that Session. -/
theorem external_notify_never_schedules (v : Val) (s : Sess) :
    (notifyRecv v s).scheduled = s.scheduled ∧
    (notifyRecv v s).stateVal = v ∧
    (notifyRecv v s).prevRef = v ∧
    jsGet (notifyRecv v s).cache s.key = v ∧
    (notifyRecv v s).syncing = false := by
  refine ⟨rfl, rfl, rfl, ?_, rfl⟩
  simp [notifyRecv, jsGet_mapSet_self]

theorem runSetDb_confirm_before (ops : List (String × Val × Bool)) :
    ∀ pre k v post, runSetDb ops = pre ++ Ev.notifyEv k v :: post →
      Ev.putConfirm k v ∈ pre := by
  induction ops with
  | nil =>
    intro pre k v post h
    simp [runSetDb] at h
  | cons o rest ih =>
    intro pre k v post h
    cases hok : o.2.2 with
    | true =>
      simp only [runSetDb, setDbTrace, hok, if_pos, List.cons_append, List.nil_append] at h
      match pre, h with
      | [], h => simp at h
      | [a], h => simp at h
      | [a, b], h =>
        simp only [List.cons_append, List.nil_append, List.cons.injEq] at h
        obtain ⟨ha, _, hne, _⟩ := h
        rw [Ev.notifyEv.injEq] at hne
        rw [← ha, hne.1, hne.2]
        exact List.mem_cons_self _ _
      | a :: b :: c :: pre', h =>
        simp only [List.cons_append, List.cons.injEq] at h
        obtain ⟨_, _, _, htail⟩ := h
        have := ih pre' k v post htail
        exact List.mem_cons_of_mem _ (List.mem_cons_of_mem _ (List.mem_cons_of_mem _ this))
    | false =>
      simp only [runSetDb, setDbTrace, hok, if_neg, Bool.false_eq_true, not_false_iff,
        List.cons_append, List.nil_append] at h
      match pre, h with
      | [], h => simp at h
      | a :: pre', h =>
        simp only [List.cons_append, List.cons.injEq] at h
        obtain ⟨_, htail⟩ := h
        exact List.mem_cons_of_mem _ (ih pre' k v post htail)

/-- Claim C4. Notification timing: in the trace of any batch of queued
persistence operations, the notify events are exactly one per confirmed
put, in order and with the confirmed value (so a failed put produces no
notification), and every notify event is strictly preceded in the trace
by the matching storage confirmation — notify never fires before the
Storage Adapter confirms the write. -/
theorem notify_after_confirmed_put (ops : List (String × Val × Bool)) :
    (runSetDb ops).filter isNotify
      = (ops.filter (fun o => o.2.2)).map (fun o => Ev.notifyEv o.1 o.2.1) ∧
    (∀ pre k v post, runSetDb ops = pre ++ Ev.notifyEv k v :: post →
      Ev.putConfirm k v ∈ pre) := by
  constructor
  · induction ops with
    | nil => simp [runSetDb]
    | cons o rest ih =>
      cases hok : o.2.2 with
      | true => simp [runSetDb, setDbTrace, hok, isNotify, List.filter_append, ih]
      | false => simp [runSetDb, setDbTrace, hok, isNotify, List.filter_append, ih]
  · exact runSetDb_confirm_before ops

/-- Claim C4 witness: for the single confirmed put of 1 under key k, the
notify event in the trace is preceded by the matching confirmation. -/
theorem notify_after_confirmed_put_witness :
    Ev.putConfirm "k" (some (JSVal.num 1)) ∈
      [Ev.putConfirm "k" (some (JSVal.num 1)), Ev.cacheWrite "k" (some (JSVal.num 1))] :=
  (notify_after_confirmed_put [("k", some (JSVal.num 1), true)]).2
    [Ev.putConfirm "k" (some (JSVal.num 1)), Ev.cacheWrite "k" (some (JSVal.num 1))]
    "k" (some (JSVal.num 1)) [] (by decide)

/-- Claim C5 counterexample: with two registered callbacks of which the
first throws, notify invokes only the first — the second
currently-registered callback is never invoked, because Set.forEach has
no try/catch around the callback and the exception ends the iteration. -/
theorem notify_throw_stops_later_callbacks :
    (notifyRun (fun i => i == 0) [0, 1]).1 = [0] ∧
    (1 : Nat) ∉ (notifyRun (fun i => i == 0) [0, 1]).1 := by
  decide

/-- Claim C5 (amended): notify invokes the registered callbacks for the
key synchronously in iteration order only up to and including the first
callback that throws; callbacks registered after that one in iteration
order are not invoked and the exception escapes notify. When no callback
throws, every currently-registered callback is invoked. -/
theorem notify_runs_until_first_throw (throws : Nat → Bool) (cbs : List Nat) :
    (notifyRun throws cbs).1 =
      cbs.takeWhile (fun c => !(throws c)) ++
        ((cbs.dropWhile (fun c => !(throws c))).head?).toList ∧
    (notifyRun throws cbs).2 = cbs.any throws := by
  induction cbs with
  | nil => simp [notifyRun]
  | cons c rest ih =>
    cases hc : throws c with
    | true => simp [notifyRun, hc]
    | false => simp [notifyRun, hc, ih.1, ih.2]

/-- Claim C6 counterexample: with durable store and cache both holding 7
under key k, removeDbKey followed by re-acquiring k with default 3 yields
the residual cached 7, not 3; the cache entry survives removal and no
notification is sent — removeDbKey touches only the object store. -/
theorem removeKey_residual_cache :
    (mkSession "k" (some (JSVal.num 3))
        (removeDbKey "k"
          ⟨[("k", some (JSVal.num 7))], [("k", some (JSVal.num 7))], []⟩).cache).stateVal
      = some (JSVal.num 7) ∧
    (some (JSVal.num 7) : Val) ≠ some (JSVal.num 3) ∧
    mapGet "k" (removeDbKey "k"
        ⟨[("k", some (JSVal.num 7))], [("k", some (JSVal.num 7))], []⟩).cache
      = some (some (JSVal.num 7)) ∧
    (removeDbKey "k"
        ⟨[("k", some (JSVal.num 7))], [("k", some (JSVal.num 7))], []⟩).notified = [] := by
  decide

/-- Claim C6 (amended): removeDbKey deletes the key from the Storage
Adapter only; it leaves the Cache and the notification log untouched, so
re-acquiring the key with any defaultValue yields the residual non-null
cached value rather than the default. -/
theorem removeKey_deletes_store_only (k : String) (p : Proc) (d w : Val)
    (h1 : mapGet k p.cache = some w) (h2 : w.isSome) (h3 : w ≠ some JSVal.null) :
    mapGet k (removeDbKey k p).store = none ∧
    (removeDbKey k p).cache = p.cache ∧
    (removeDbKey k p).notified = p.notified ∧
    (mkSession k d (removeDbKey k p).cache).stateVal = w := by
  refine ⟨mapGet_mapDelete_self k p.store, rfl, rfl, ?_⟩
  have hh : mapHas k p.cache = true := by simp [mapHas, h1]
  obtain ⟨x, hx⟩ := Option.isSome_iff_exists.mp h2
  subst hx
  have hxn : x ≠ JSVal.null := fun hcon => h3 (by rw [hcon])
  simp [removeDbKey, mkSession, seedCache, hh, jsGet, h1,
    nullish_some_of_ne_null x d hxn]

/-- Claim C6 witness: removal of k from a process whose cache holds 9
deletes the store entry, keeps the cache intact and makes the re-acquired
Session expose 9. -/
theorem removeKey_deletes_store_only_witness :
    mapGet "k" (⟨[("k", some (JSVal.num 9))], [("k", some (JSVal.num 9))], []⟩ : Proc).cache
      = some (some (JSVal.num 9)) ∧
    (some (JSVal.num 9) : Val).isSome ∧
    (some (JSVal.num 9) : Val) ≠ some JSVal.null ∧
    (mapGet "k" (removeDbKey "k"
        (⟨[("k", some (JSVal.num 9))], [("k", some (JSVal.num 9))], []⟩ : Proc)).store = none ∧
      (removeDbKey "k"
        (⟨[("k", some (JSVal.num 9))], [("k", some (JSVal.num 9))], []⟩ : Proc)).cache
        = (⟨[("k", some (JSVal.num 9))], [("k", some (JSVal.num 9))], []⟩ : Proc).cache ∧
      (removeDbKey "k"
        (⟨[("k", some (JSVal.num 9))], [("k", some (JSVal.num 9))], []⟩ : Proc)).notified
        = (⟨[("k", some (JSVal.num 9))], [("k", some (JSVal.num 9))], []⟩ : Proc).notified ∧
      (mkSession "k" (some (JSVal.num 1)) (removeDbKey "k"
        (⟨[("k", some (JSVal.num 9))], [("k", some (JSVal.num 9))], []⟩ : Proc)).cache).stateVal
        = some (JSVal.num 9)) :=
  ⟨by decide, by decide, by decide,
   removeKey_deletes_store_only "k"
     ⟨[("k", some (JSVal.num 9))], [("k", some (JSVal.num 9))], []⟩
     (some (JSVal.num 1)) (some (JSVal.num 9)) (by decide) (by decide) (by decide)⟩

theorem stepSess_cache_prevRef (s : Sess) (e : SessEv)
    (h : mapGet s.key s.cache = some s.prevRef) :
    mapGet (stepSess s e).key (stepSess s e).cache = some (stepSess s e).prevRef := by
  cases e with
  | evSet a =>
    show mapGet (setValue a s).key (setValue a s).cache = some (setValue a s).prevRef
    unfold setValue
    dsimp only
    split
    · simp [mapGet_mapSet_self]
    · exact h
  | evEffectStart =>
    show mapGet (effectStart s).key (effectStart s).cache = some (effectStart s).prevRef
    unfold effectStart
    split
    · exact h
    · exact h
  | evLoadOk stored =>
    show mapGet (loadComplete stored s).key (loadComplete stored s).cache
        = some (loadComplete stored s).prevRef
    unfold loadComplete
    split
    · simp [mapGet_mapSet_self]
    · split
      · exact h
      · exact h
  | evLoadFail => exact h
  | evNotify v =>
    show mapGet (notifyRecv v s).key (notifyRecv v s).cache = some (notifyRecv v s).prevRef
    simp [notifyRecv, mapGet_mapSet_self]

/-- Claim C7 counterexample: a Session acquired with default 5 on an
empty cache performs a local write of 1 before the initial load settles
(cache now holds 1), then the load completes with the older durable value
0 and unconditionally overwrites both the cache and the local state — the
cache ends at the stale durable 0 even though the most recent local write
applied 1, exactly the stale-load overwrite the claim rules out. -/
theorem stale_load_overwrites_newer_write :
    mapGet "k" (runSess (mkSession "k" (some (JSVal.num 5)) [])
        [.evEffectStart, .evSet (.lit (some (JSVal.num 1)))]).cache
      = some (some (JSVal.num 1)) ∧
    mapGet "k" (runSess (mkSession "k" (some (JSVal.num 5)) [])
        [.evEffectStart, .evSet (.lit (some (JSVal.num 1))),
         .evLoadOk (some (JSVal.num 0))]).cache
      = some (some (JSVal.num 0)) := by
  constructor
  · decide
  · decide

/-- Claim C7 (amended): if the Cache entry for the Session key equals the
value the Session last applied (its previousValueRef), then every Session
step — a local write, the effect start, a load completion, a load failure
or an external notification — preserves that agreement, where a load that
finds a durable value counts as applying that value: it overwrites the
Cache and the Session view even when a newer local write preceded its
completion. The entry therefore always equals the most recently applied
value in this overwrite-on-load sense, never some other intermediate. -/
theorem cache_reflects_last_applied (s : Sess) (evs : List SessEv)
    (h : mapGet s.key s.cache = some s.prevRef) :
    mapGet (runSess s evs).key (runSess s evs).cache
      = some (runSess s evs).prevRef := by
  induction evs generalizing s with
  | nil => exact h
  | cons e es ih => exact ih (stepSess s e) (stepSess_cache_prevRef s e h)

/-- Claim C7 witness: a freshly acquired Session satisfies the agreement
and keeps it across a full load-then-write run. -/
theorem cache_reflects_last_applied_witness :
    mapGet (mkSession "k" (some (JSVal.num 2)) []).key
        (mkSession "k" (some (JSVal.num 2)) []).cache
      = some (mkSession "k" (some (JSVal.num 2)) []).prevRef ∧
    mapGet (runSess (mkSession "k" (some (JSVal.num 2)) [])
        [.evEffectStart, .evLoadOk (some (JSVal.num 9)),
         .evSet (.lit (some (JSVal.num 3)))]).key
        (runSess (mkSession "k" (some (JSVal.num 2)) [])
        [.evEffectStart, .evLoadOk (some (JSVal.num 9)),
         .evSet (.lit (some (JSVal.num 3)))]).cache
      = some (runSess (mkSession "k" (some (JSVal.num 2)) [])
        [.evEffectStart, .evLoadOk (some (JSVal.num 9)),
         .evSet (.lit (some (JSVal.num 3)))]).prevRef :=
  ⟨by decide,
   cache_reflects_last_applied (mkSession "k" (some (JSVal.num 2)) [])
     [.evEffectStart, .evLoadOk (some (JSVal.num 9)),
      .evSet (.lit (some (JSVal.num 3)))] (by decide)⟩

/-- Claim C9. Default write-through: acquiring a key with no cache entry
and no durable value, with a supplied defaultValue d, exposes d as the
initial value; when the load completes empty, exactly the single value d
is handed to the Debounce Scheduler, whose single call fires exactly one
put carrying d; and after that put the durable store answers d to a
subsequent load of the key. -/
theorem default_write_through (k : String) (d : Val) (c0 st0 : KVMap)
    (t delay : Nat) (h1 : mapHas k c0 = false) (h2 : getDbResult st0 k = none)
    (h3 : d.isSome) :
    (mkSession k d c0).stateVal = d ∧
    (loadComplete (getDbResult st0 k) (effectStart (mkSession k d c0))).scheduled = [d] ∧
    debounceFires delay [(t, d)] = [(t + delay, d)] ∧
    getDbResult (mapSet k d st0) k = d := by
  refine ⟨?_, ?_, rfl, ?_⟩
  · simp [mkSession, seedCache, h1, h3, jsGet_mapSet_self, nullish_idem]
  · simp [mkSession, seedCache, h1, h3, effectStart, loadComplete, h2]
  · simp [getDbResult, jsGet_mapSet_self]

/-- Claim C9 witness: acquiring the unset key counter with default 0
exposes 0, schedules exactly one write of 0, fires exactly one put of 0,
and the store then answers 0. -/
theorem default_write_through_witness :
    mapHas "counter" [] = false ∧
    getDbResult [] "counter" = none ∧
    (some (JSVal.num 0) : Val).isSome ∧
    ((mkSession "counter" (some (JSVal.num 0)) []).stateVal = some (JSVal.num 0) ∧
      (loadComplete (getDbResult [] "counter")
        (effectStart (mkSession "counter" (some (JSVal.num 0)) []))).scheduled
        = [some (JSVal.num 0)] ∧
      debounceFires 100 [(0, some (JSVal.num 0))] = [(0 + 100, some (JSVal.num 0))] ∧
      getDbResult (mapSet "counter" (some (JSVal.num 0)) []) "counter"
        = some (JSVal.num 0)) :=
  ⟨by decide, by decide, by decide,
   default_write_through "counter" (some (JSVal.num 0)) [] [] 0 100
     (by decide) (by decide) (by decide)⟩

/-- Claim C10. Null-as-absent at initialization: when the cache entry for
the key is the JS value null and a non-null defaultValue is supplied, the
initializer cache.get(key) ?? defaultValue falls back to the default, so
the Session initial value is the default rather than the cached null. -/
theorem null_cached_falls_back_to_default (k : String) (c0 : KVMap) (v : JSVal)
    (h1 : mapGet k c0 = some (some JSVal.null)) (_h2 : v ≠ JSVal.null) :
    (mkSession k (some v) c0).stateVal = some v := by
  have hh : mapHas k c0 = true := by simp [mapHas, h1]
  simp [mkSession, seedCache, hh, jsGet, h1, nullish]

/-- Claim C10 witness: with null cached under k and default 8, the
Session initial value is 8. -/
theorem null_cached_falls_back_witness :
    mapGet "k" [("k", (some JSVal.null : Val))] = some (some JSVal.null) ∧
    JSVal.num 8 ≠ JSVal.null ∧
    (mkSession "k" (some (JSVal.num 8)) [("k", some JSVal.null)]).stateVal
      = some (JSVal.num 8) :=
  ⟨by decide, by decide,
   null_cached_falls_back_to_default "k" [("k", some JSVal.null)] (JSVal.num 8)
     (by decide) (by decide)⟩

end UseDbState
